import Mathlib

/-!
Shallow embedding of the FileMover scanner/planner/executor found in
`apps/gui/src/services/fileScanner.ts`, together with the data model of
`apps/gui/src/types/index.ts`.

Modelling conventions:
* JavaScript strings are `List Char`; `String.prototype.toLowerCase` is ASCII
  case lowering (all inputs considered here are ASCII).
* `Math.random()` is an explicit stream `ℕ → ℚ` of samples (contract: each
  sample lies in `[0,1)`), threaded by position in the exact order the source
  calls `Math.random()`.
* The wall clock (`new Date()`) is an explicit `JsDate` value.
* JavaScript regular expressions (`PatternKind.Regex` only) are delegated to an
  oracle parameter `RegexOracle`; `none` models a `RegExp` constructor throw.
* The executor's cancellation flag is a monotone boolean signal sampled at each
  point the source reads `this.isCancelled`.
-/

namespace FileMover

inductive PatternKind where
  | Glob
  | Regex
  | Contains
deriving DecidableEq

inductive ConflictPolicy where
  | AutoRename
  | Skip
  | Overwrite
deriving DecidableEq

inductive Warning where
  | LongPath
  | AclDiffers
  | Offline
  | AccessDenied
  | Junction
  | CrossVolume
deriving DecidableEq

inductive OpKind where
  | Move
  | CopyDelete
  | Rename
  | Skip
  | None
deriving DecidableEq

inductive Permission where
  | Administrator
  | FileSystemWrite
  | NetworkAccess
deriving DecidableEq

inductive ConflictType where
  | NameExists
  | CycleDetected
  | DestInsideSource
  | NoSpace
  | Permission
deriving DecidableEq

structure PatternSpec where
  kind : PatternKind
  value : List Char
  is_exclude : Bool
  case_insensitive : Bool
deriving DecidableEq

structure Rule where
  id : List Char
  enabled : Bool
  pattern : PatternSpec
  dest_root : List Char
  template : List Char
  policy : ConflictPolicy
  label : Option (List Char)
  priority : Nat
deriving DecidableEq

structure FolderHit where
  path : List Char
  name : List Char
  matched_rule : Option (List Char)
  dest_preview : Option (List Char)
  warnings : List Warning
  size_bytes : Option ℚ
deriving DecidableEq

structure Conflict where
  type : ConflictType
  existing_path : Option (List Char)
  required : Option ℚ
  available : Option ℚ
  required_permission : Option Permission
deriving DecidableEq

structure PlanNode where
  id : List Char
  is_dir : Bool
  name_before : List Char
  path_before : List Char
  name_after : List Char
  path_after : List Char
  kind : OpKind
  size_bytes : Option ℚ
  warnings : List Warning
  conflicts : List Conflict
  children : List (List Char)
  rule_id : Option (List Char)
deriving DecidableEq

structure PlanSummary where
  count_dirs : Nat
  count_files : Nat
  total_bytes : Option ℚ
  cross_volume : Nat
  conflicts : Nat
  warnings : Nat
deriving DecidableEq

structure MovePlan where
  roots : List (List Char)
  nodes : List (List Char × PlanNode)
  summary : PlanSummary
deriving DecidableEq

inductive SessionStatus where
  | Created
  | Running
  | Completed
  | Failed
  | Cancelled
deriving DecidableEq

/-- ASCII model of `String.prototype.toLowerCase`. -/
def jsToLower (s : List Char) : List Char := s.map Char.toLower

/-- JavaScript string truthiness for `string | undefined`: `undefined` and the
empty string are falsy. -/
def jsTruthyStr (o : Option (List Char)) : Bool :=
  match o with
  | some s => s != []
  | none => false

/-- JavaScript `a || b` for two strings (returns `b` when `a` is empty). -/
def jsOr (a b : List Char) : List Char := if a != [] then a else b

/-- Model of `path.substring(0, path.lastIndexOf('\\'))`: everything strictly before the
last backslash; the empty string when there is no backslash (in JavaScript
`lastIndexOf` yields `-1` and `substring(0, -1)` clamps to the empty string). -/
def parentDir (p : List Char) : List Char :=
  ((p.reverse.dropWhile (fun c => c != '\\')).drop 1).reverse

/-- Last component of `s.split(sep)` (`Array.prototype.pop` on the split). -/
def lastAfter (sep : Char) (s : List Char) : List Char :=
  (s.reverse.takeWhile (fun c => c != sep)).reverse

/-- Model of `text.includes(pat)`: substring containment. -/
def jsIncludes (text pat : List Char) : Bool := decide (pat <:+: text)

/-- The regular-expression oracle used for `PatternKind.Regex` rules: given the
(possibly lowercased) pattern source, the `case_insensitive` flag and the text,
it returns the result of `new RegExp(pattern, flags).test(text)`, or `none` if
the `RegExp` constructor throws. -/
def RegexOracle : Type := List Char → Bool → List Char → Option Bool

/-- An oracle under which every regex pattern is invalid (throws). -/
def trivialOracle : RegexOracle := fun _ _ _ => none

/-- Semantics of `FileScanner.matchGlob`: the source escapes regex
metacharacters, turns `*` into `.*` and `?` into `.`, and anchors with `^...$`;
this is exactly glob matching where `*` matches any sequence of characters and
`?` any single character. -/
def matchGlob : List Char → List Char → Bool
  | [], [] => true
  | [], _ :: _ => false
  | '*' :: ps, ts =>
      matchGlob ps ts ||
        (match ts with
         | [] => false
         | _ :: ts2 => matchGlob ('*' :: ps) ts2)
  | '?' :: _, [] => false
  | '?' :: ps, _ :: ts => matchGlob ps ts
  | _ :: _, [] => false
  | p :: ps, t :: ts => p == t && matchGlob ps ts
termination_by pat text => (pat.length, text.length)

/-- Embedding of `FileScanner.matchesPattern` (fileScanner.ts lines 142-162). The glob case
receives the case-folded text and value; the regex case compiles the (folded)
value but tests the original text, and a compile failure returns `false`
without the `!== is_exclude` inversion. -/
def matchesPattern (oracle : RegexOracle) (text : List Char) (rule : Rule) : Bool :=
  let pattern := rule.pattern
  let testText := if pattern.case_insensitive then jsToLower text else text
  let testValue := if pattern.case_insensitive then jsToLower pattern.value else pattern.value
  match pattern.kind with
  | PatternKind.Contains => (jsIncludes testText testValue) != pattern.is_exclude
  | PatternKind.Glob => (matchGlob testValue testText) != pattern.is_exclude
  | PatternKind.Regex =>
      match oracle testValue pattern.case_insensitive text with
      | some b => b != pattern.is_exclude
      | none => false

/-- Embedding of `FileScanner.findMatchingRule` (fileScanner.ts lines 131-140): first
enabled rule, in declaration order, for which `matchesPattern` holds. -/
def findMatchingRule (oracle : RegexOracle) (rules : List Rule) (folderName : List Char) :
    Option Rule :=
  rules.find? (fun rule => rule.enabled && matchesPattern oracle folderName rule)

/-- The wall clock at preview time: `getFullYear()`, `getMonth() + 1` (the
source always adds 1 before use), `getDate()` of the local `new Date()`. -/
structure JsDate where
  year : Nat
  month : Nat
  day : Nat
deriving DecidableEq

/-- Decimal rendering of a number, `n.toString()`. -/
def natToStr (n : Nat) : List Char := (Nat.repr n).toList

/-- Model of `s.padStart(2, '0')`. -/
def pad2 (s : List Char) : List Char := List.replicate (2 - s.length) '0' ++ s

/-- Model of `s.padStart(3, '0')`. -/
def pad3 (s : List Char) : List Char := List.replicate (3 - s.length) '0' ++ s

/-- Model of `String.prototype.replace` with a string pattern: replaces the first
occurrence of `pat` (the leftmost one), or returns the string unchanged when
`pat` does not occur.  An empty `pat` inserts `repl` at the front, as in
JavaScript. -/
def replaceFirst (pat repl : List Char) (s : List Char) : List Char :=
  if pat.isPrefixOf s then repl ++ s.drop pat.length
  else
    match s with
    | [] => []
    | c :: rest => c :: replaceFirst pat repl rest

/-- A mock folder record produced by `generateRealisticFolders`
(`{path, name, size}`). -/
structure MockFolder where
  path : List Char
  name : List Char
  size : ℚ
deriving DecidableEq

/-- Embedding of `FileScanner.generateDestinationPath` (fileScanner.ts lines 172-182):
substitutes the first occurrence of each of `\x7bname\x7d`, `\x7byear\x7d`,
`\x7bmonth\x7d`, `\x7bday\x7d` in turn, then prefixes `dest_root` and a
backslash.  No other token is substituted and no error is raised. -/
def generateDestinationPath (date : JsDate) (folder : MockFolder) (rule : Rule) : List Char :=
  let t1 := replaceFirst ("{name}".toList) folder.name rule.template
  let t2 := replaceFirst ("{year}".toList) (natToStr date.year) t1
  let t3 := replaceFirst ("{month}".toList) (pad2 (natToStr date.month)) t2
  let t4 := replaceFirst ("{day}".toList) (pad2 (natToStr date.day)) t3
  rule.dest_root ++ ("\\".toList) ++ t4

/-- Embedding of `FileScanner.analyzeWarnings` (fileScanner.ts lines 184-204).  `rnd` is the
`Math.random()` stream, `k` the next unconsumed position; the result carries
the updated position.  The random demo warning consumes two samples (the
`< 0.3` gate and the index into `['Junction', 'CrossVolume']`). -/
def analyzeWarnings (rnd : ℕ → ℚ) (k : ℕ) (path : List Char) : List Warning × ℕ :=
  let w1 : List Warning := if path.length > 250 then [Warning.LongPath] else []
  let w2 := if jsIncludes path ("$".toList) || jsIncludes path ("@".toList) then
      w1 ++ [Warning.AclDiffers]
    else w1
  if rnd k < 3/10 then
    (w2 ++ [if ⌊rnd (k + 1) * 2⌋ = 0 then Warning.Junction else Warning.CrossVolume], k + 2)
  else (w2, k + 1)

/-- Embedding of `FileScanner.generateRealisticFolders` (fileScanner.ts lines 103-129). -/
def generateRealisticFolders (root : List Char) : List MockFolder :=
  let baseName := jsOr (lastAfter '\\' root) (jsOr (lastAfter '/' root) ("root".toList))
  if jsIncludes (jsToLower root) ("documents".toList) then
    [⟨root ++ "\\Photos\\Vacation2024".toList, "Vacation2024".toList, 1024 * 1024 * 85⟩,
     ⟨root ++ "\\Projects\\WebApp".toList, "WebApp".toList, 1024 * 1024 * 45⟩,
     ⟨root ++ "\\Old Files\\Archive".toList, "Archive".toList, 1024 * 1024 * 156⟩]
  else if jsIncludes (jsToLower root) ("downloads".toList) then
    [⟨root ++ "\\Software\\Installers".toList, "Installers".toList, 1024 * 1024 * 234⟩,
     ⟨root ++ "\\Videos\\Movies".toList, "Movies".toList, 1024 * 1024 * 1024 * 5 / 2⟩,
     ⟨root ++ "\\Documents\\PDFs".toList, "PDFs".toList, 1024 * 1024 * 67⟩]
  else
    [⟨root ++ "\\".toList ++ baseName ++ "_backup".toList,
      baseName ++ "_backup".toList, 1024 * 1024 * 123⟩,
     ⟨root ++ "\\temp\\cache".toList, "cache".toList, 1024 * 1024 * 34⟩,
     ⟨root ++ "\\media\\images".toList, "images".toList, 1024 * 1024 * 78⟩]

/-- The per-folder loop of `FileScanner.generateMockResults` (fileScanner.ts
lines 86-100): every mock folder yields a `FolderHit`; `matched_rule` is the
matched rule's `label || id`; `dest_preview` is present exactly when a rule
matched. -/
def scanFolders (oracle : RegexOracle) (rules : List Rule) (date : JsDate) (rnd : ℕ → ℚ) :
    List MockFolder → ℕ → List FolderHit × ℕ
  | [], k => ([], k)
  | f :: fs, k =>
    let matched := findMatchingRule oracle rules f.name
    let w := analyzeWarnings rnd k f.path
    let hit : FolderHit :=
      ⟨f.path, f.name,
       (match matched with
        | some r => some (jsOr (r.label.getD []) r.id)
        | none => none),
       matched.map (fun r => generateDestinationPath date f r),
       w.1, some f.size⟩
    let rest := scanFolders oracle rules date rnd fs w.2
    (hit :: rest.1, rest.2)

/-- Embedding of `FileScanner.generateMockResults` (fileScanner.ts lines 79-101): scan the
realistic mock folders of a root. -/
def generateMockResults (oracle : RegexOracle) (rules : List Rule) (date : JsDate)
    (rnd : ℕ → ℚ) (k : ℕ) (root : List Char) : List FolderHit × ℕ :=
  scanFolders oracle rules date rnd (generateRealisticFolders root) k

/-- The first character of `p.match(re ("^([A-Za-z]):"))`: the drive letter when
the path starts with an ASCII letter followed by a colon. -/
def driveOf (p : List Char) : Option Char :=
  match p with
  | c :: ':' :: _ => if c.isAlpha then some c else none
  | _ => none

/-- Embedding of `PlanGenerator.isCrossVolume` (fileScanner.ts lines 385-399): when both
paths carry a drive letter, compare the letters case-insensitively; otherwise
compare the first backslash-separated component case-sensitively. -/
def isCrossVolume (sourcePath destPath : List Char) : Bool :=
  match driveOf sourcePath, driveOf destPath with
  | some s, some d => s.toLower != d.toLower
  | _, _ =>
      (sourcePath.takeWhile (fun c => c != '\\')) != (destPath.takeWhile (fun c => c != '\\'))

/-- Embedding of `PlanGenerator.analyzeConflicts` (fileScanner.ts lines 312-353).  Conflicts
are pushed in source order: a random `NameExists` (probability 0.3, only for a
truthy `dest_preview`), a `Permission` conflict on an `AccessDenied` warning, a
random `NoSpace` for sizes above 100 MiB, and a deterministic
`DestInsideSource` when the lowercased `dest_preview` is a substring of the
lowercased `path`. -/
def analyzeConflicts (rnd : ℕ → ℚ) (k : ℕ) (hit : FolderHit) : List Conflict × ℕ :=
  let p1 : List Conflict × ℕ :=
    if jsTruthyStr hit.dest_preview then
      if rnd k < 3/10 then
        ([⟨ConflictType.NameExists, some (hit.dest_preview.getD [] ++ "_backup".toList),
           none, none, none⟩], k + 1)
      else ([], k + 1)
    else ([], k)
  let c2 : List Conflict :=
    if hit.warnings.contains Warning.AccessDenied then
      [⟨ConflictType.Permission, none, none, none, some Permission.Administrator⟩]
    else []
  let p3 : List Conflict × ℕ :=
    match hit.size_bytes with
    | some q =>
      if q != 0 && q > 1024 * 1024 * 100 then
        if rnd p1.2 < 2/10 then
          let required := q
          let available : ℚ := (⌊required * (7/10 + rnd (p1.2 + 1) * (2/10))⌋ : ℤ)
          (if available < required then
            [⟨ConflictType.NoSpace, none, some required, some available, none⟩]
           else [], p1.2 + 2)
        else ([], p1.2 + 1)
      else ([], p1.2)
    | none => ([], p1.2)
  let c4 : List Conflict :=
    if jsTruthyStr hit.dest_preview &&
        jsIncludes (jsToLower hit.path) (jsToLower (hit.dest_preview.getD [])) then
      [⟨ConflictType.DestInsideSource, none, none, none, none⟩]
    else []
  (p1.1 ++ c2 ++ p3.1 ++ c4, p3.2)

/-- Embedding of `PlanGenerator.determineOperationKind` (fileScanner.ts lines 355-383).
Note it re-runs `analyzeConflicts` on fresh random samples. -/
def determineOperationKind (rnd : ℕ → ℚ) (k : ℕ) (hit : FolderHit) : OpKind × ℕ :=
  if !jsTruthyStr hit.dest_preview then (OpKind.Skip, k)
  else
    let dest := hit.dest_preview.getD []
    let p := analyzeConflicts rnd k hit
    if p.1.length > 0 then (OpKind.Skip, p.2)
    else if hit.warnings.contains Warning.AccessDenied then (OpKind.Skip, p.2)
    else if isCrossVolume hit.path dest then (OpKind.CopyDelete, p.2)
    else
      let sourcePath := parentDir hit.path
      let destPath := parentDir dest
      if jsToLower sourcePath == jsToLower destPath then (OpKind.Rename, p.2)
      else (OpKind.Move, p.2)

/-- The bytes a hit contributes to the running total:
`if (hit.size_bytes) totalBytes += hit.size_bytes` adds `size_bytes` exactly
when it is truthy, which coincides with always adding this value (skipping a
falsy `0` is the same as adding `0`). -/
def hitBytes (hit : FolderHit) : ℚ :=
  match hit.size_bytes with
  | some q => if q != 0 then q else 0
  | none => 0

/-- The hit's contribution to the `crossVolume` counter:
`if (hit.dest_preview && this.isCrossVolume(hit.path, hit.dest_preview)) crossVolume++`. -/
def hitCrossVolume (hit : FolderHit) : ℕ :=
  if jsTruthyStr hit.dest_preview && isCrossVolume hit.path (hit.dest_preview.getD [])
  then 1 else 0

/-- The per-hit loop of `PlanGenerator.generatePlan` (fileScanner.ts lines
241-281), threading the hit index `i` and the random position `k`.  Returns the
insertion-ordered node map together with the summary accumulators
`(totalBytes, countFiles, crossVolume, totalConflicts, totalWarnings)` and the
final random position. -/
def processHits (rnd : ℕ → ℚ) :
    List FolderHit → ℕ → ℕ → List (List Char × PlanNode) × ℚ × ℕ × ℕ × ℕ × ℕ × ℕ
  | [], _, k => ([], 0, 0, 0, 0, 0, k)
  | hit :: rest, i, k =>
    let nodeId := "node_".toList ++ natToStr i
    let pc := analyzeConflicts rnd k hit
    let estimatedFiles := (⌊rnd pc.2 * 50⌋).toNat + 10
    let pk := determineOperationKind rnd (pc.2 + 1) hit
    let node : PlanNode :=
      ⟨nodeId, true, hit.name, hit.path, hit.name,
       (if jsTruthyStr hit.dest_preview then hit.dest_preview.getD [] else hit.path),
       pk.1, hit.size_bytes, hit.warnings, pc.1, [], hit.matched_rule⟩
    let r := processHits rnd rest (i + 1) pk.2
    ((nodeId, node) :: r.1,
     hitBytes hit + r.2.1,
     estimatedFiles + r.2.2.1,
     hitCrossVolume hit + r.2.2.2.1,
     pc.1.length + r.2.2.2.2.1,
     hit.warnings.length + r.2.2.2.2.2.1,
     r.2.2.2.2.2.2)

/-- Embedding of `PlanGenerator.generatePlan` (fileScanner.ts lines 227-305): builds one
root node per input hit and the summary from the loop accumulators. -/
def generatePlan (rnd : ℕ → ℚ) (k : ℕ) (hits : List FolderHit) : MovePlan × ℕ :=
  let r := processHits rnd hits 0 k
  (⟨r.1.map Prod.fst, r.1,
    ⟨r.1.length, r.2.2.1, some r.2.1, r.2.2.2.1, r.2.2.2.2.1, r.2.2.2.2.2.1⟩⟩,
   r.2.2.2.2.2.2)

/-- One simulated file operation (`{path, size}`). -/
structure FileOp where
  path : List Char
  size : ℚ
deriving DecidableEq

/-- Embedding of `FileExecutor.generateFileName` (fileScanner.ts lines 535-547).  The random
extension index is drawn before the branch, so exactly one sample is consumed
on every call. -/
def generateFileName (rnd : ℕ → ℚ) (k : ℕ) (index : ℕ) (baseName : List Char) :
    List Char × ℕ :=
  let extensions := [".jpg".toList, ".png".toList, ".pdf".toList, ".txt".toList,
    ".docx".toList, ".xlsx".toList, ".mp4".toList, ".mp3".toList]
  let ext := extensions.getD (⌊rnd k * 8⌋).toNat []
  let lower := jsToLower baseName
  if jsIncludes lower ("photo".toList) || jsIncludes lower ("vacation".toList) then
    (("IMG_".toList) ++ pad3 (natToStr (index + 1)) ++ ext, k + 1)
  else if jsIncludes lower ("project".toList) || jsIncludes lower ("code".toList) then
    let fileNames := ["index.html".toList, "style.css".toList, "script.js".toList,
      "README.md".toList, "package.json".toList]
    (fileNames.getD (index % fileNames.length) [], k + 1)
  else
    (("file_".toList) ++ natToStr (index + 1) ++ ext, k + 1)

/-- The inner file loop of `FileExecutor.generateFileOperations` (fileScanner.ts
lines 520-529) over the list of file indices. -/
def genFilesAux (rnd : ℕ → ℚ) (node : PlanNode) (totalSize : ℚ) (fileCount : ℕ) :
    List ℕ → ℕ → List FileOp × ℕ
  | [], k => ([], k)
  | i :: is, k =>
    let fn := generateFileName rnd k i node.name_before
    let fileSize : ℚ := (⌊totalSize / (fileCount : ℚ) * (1/2 + rnd fn.2)⌋ : ℤ)
    let rest := genFilesAux rnd node totalSize fileCount is (fn.2 + 1)
    (⟨node.path_before ++ ("\\".toList) ++ fn.1, fileSize⟩ :: rest.1, rest.2)

/-- Embedding of `FileExecutor.generateFileOperations` (fileScanner.ts lines 508-533): per
root node, a random file count in `[5, 35)` and per-file random names/sizes;
missing nodes are skipped. -/
def generateFileOperations (rnd : ℕ → ℚ) (plan : MovePlan) :
    List (List Char) → ℕ → List FileOp × ℕ
  | [], k => ([], k)
  | rootId :: roots, k =>
    match plan.nodes.lookup rootId with
    | none => generateFileOperations rnd plan roots k
    | some node =>
      let fileCount := (⌊rnd k * 30⌋).toNat + 5
      let totalSize : ℚ :=
        match node.size_bytes with
        | some q => if q != 0 then q else 1024 * 1024 * 50
        | none => 1024 * 1024 * 50
      let p := genFilesAux rnd node totalSize fileCount (List.range fileCount) (k + 1)
      let rest := generateFileOperations rnd plan roots p.2
      (p.1 ++ rest.1, rest.2)

/-- Embedding of `FileExecutor.calculateTotalOperations` (fileScanner.ts lines 560-573). -/
def calculateTotalOperations (plan : MovePlan) : ℕ :=
  let t := plan.roots.foldl
    (fun acc rootId =>
      match plan.nodes.lookup rootId with
      | some node =>
        if node.kind != OpKind.Skip && node.kind != OpKind.None then
          let sz : ℚ :=
            match node.size_bytes with
            | some q => if q != 0 then q else 1024 * 1024 * 10
            | none => 1024 * 1024 * 10
          acc + ((⌊sz / (1024 * 1024)⌋).toNat + 5)
        else acc
      | none => acc)
    0
  max t 10

/-- The loop of `FileExecutor.simulateExecution` (fileScanner.ts lines
459-506).  `cancel` is the sticky `isCancelled` flag sampled at each read, `t`
the read clock: the loop guard reads at `t`, the post-delay check at `t + 1`.
Each completed iteration consumes one random sample (the simulated 2% failure
check); the wall-clock speed/ETA display fields are not modelled.  Returns
`(completedOps, processedBytes, randomPos, readClock)`. -/
def simulateExecution (rnd : ℕ → ℚ) (cancel : ℕ → Bool) :
    List FileOp → ℕ → ℕ → ℕ → ℚ → ℕ × ℚ × ℕ × ℕ
  | [], k, t, c, b => (c, b, k, t)
  | op :: rest, k, t, c, b =>
    if cancel t then (c, b, k, t + 1)
    else if cancel (t + 1) then (c, b, k, t + 2)
    else simulateExecution rnd cancel rest (k + 1) (t + 2) (c + 1) (b + op.size)

/-- The observable outcome of `FileExecutor.executeMovePlan`. -/
structure ExecOutcome where
  status : SessionStatus
  completed_ops : ℕ
  total_ops : ℕ
  bytes_processed : ℚ
  total_bytes : ℚ
deriving DecidableEq

/-- Embedding of `FileExecutor.executeMovePlan` (fileScanner.ts lines 424-457): runs the
simulated execution and reads `isCancelled` once more to decide the final
status (`Cancelled` versus `Completed`, which overwrites progress with the
totals).  Returns the outcome, the final random position and the final read
clock. -/
def executeMovePlan (rnd : ℕ → ℚ) (cancel : ℕ → Bool) (plan : MovePlan) :
    ExecOutcome × ℕ × ℕ :=
  let totalOps := calculateTotalOperations plan
  let totalBytes : ℚ :=
    match plan.summary.total_bytes with
    | some q => if q != 0 then q else 0
    | none => 0
  let ops := generateFileOperations rnd plan plan.roots 0
  let s := simulateExecution rnd cancel ops.1 ops.2 0 0 0
  if cancel s.2.2.2 then
    (⟨SessionStatus.Cancelled, s.1, totalOps, s.2.1, totalBytes⟩, s.2.2.1, s.2.2.2 + 1)
  else
    (⟨SessionStatus.Completed, totalOps, totalOps, totalBytes, totalBytes⟩, s.2.2.1, s.2.2.2 + 1)

/-- Disable the rule with the given id (set `enabled := false`), leaving every
other rule untouched. -/
def disableRule (rid : List Char) (rules : List Rule) : List Rule :=
  rules.map (fun r =>
    if r.id = rid then
      ⟨r.id, false, r.pattern, r.dest_root, r.template, r.policy, r.label, r.priority⟩
    else r)

/-- Number of folder names for which the matcher returns a matched rule. -/
def hitCount (oracle : RegexOracle) (rules : List Rule) (names : List (List Char)) : ℕ :=
  (names.filter (fun n => (findMatchingRule oracle rules n).isSome)).length

/-- A constant `Math.random()` stream with value 1/2 (inside `[0, 1)`, above
every probability threshold the source tests against). -/
def rndHalf : ℕ → ℚ := fun _ => 1/2

/-- A constant `Math.random()` stream with value 0. -/
def rndZero : ℕ → ℚ := fun _ => 0

/-- An enabled exclusion rule: `Contains "temp"` with `is_exclude`. -/
def c1ExcludeRule : Rule :=
  ⟨"e".toList, true, ⟨PatternKind.Contains, "temp".toList, true, false⟩,
   "D:\\out".toList, "{name}".toList, ConflictPolicy.Skip, none, 0⟩

/-- The spec's cycle-detection scenario: a hit whose destination preview is a
strict descendant of its source path. -/
def c3Hit : FolderHit :=
  ⟨"C:\\A".toList, "A".toList, none, some ("C:\\A\\sub\\A".toList), [], none⟩

/-- C1. The claim says the matcher returns an exclusion verdict (no
matched rule) whenever an enabled exclusion rule's pattern matches the name,
and otherwise the matching enabled inclusive rule of lowest priority.  The
code inverts exclusion rules instead: for the rule set consisting of one
enabled exclusion rule `Contains "temp"` and the folder name `"photos"` — a
name the exclusion pattern does **not** match — `findMatchingRule` returns the
exclusion rule itself as the matched rule (the claimed behaviour is to return
no rule, since no inclusive rule exists).  This contradicts the repository's
own requirements document (exclusion has top precedence and only matching
rules are adopted), so the code, not the claim, is at fault. -/
theorem claim_C1_code_bug_eval :
    jsIncludes ("photos".toList) ("temp".toList) = false ∧
    findMatchingRule trivialOracle [c1ExcludeRule] ("photos".toList) = some c1ExcludeRule ∧
    findMatchingRule trivialOracle [c1ExcludeRule] ("temp_files".toList) = none := by
  refine ⟨by decide, by decide, by decide⟩

unseal Rat.mul Rat.add Rat.sub Rat.inv in
/-- C3. The claim says a `DestInsideSource` conflict is reported exactly
when `path_after` is a descendant of `path_before`.  The code's check is
reversed (it asks whether the destination string occurs inside the source
path, not the source inside the destination): for the hit moving `C:\A` to
`C:\A\sub\A` — the spec's own cycle-detection scenario, where the destination
is a strict descendant of the source — `analyzeConflicts` reports no conflict
at all and the operation is classified `Move` rather than the mandatory
`Skip`.  The code contradicts the conflict's own name and the repository's
design documents, so this is a code bug. -/
theorem claim_C3_code_bug_eval :
    ("C:\\A\\".toList).isPrefixOf ("C:\\A\\sub\\A".toList) = true ∧
    (analyzeConflicts rndHalf 0 c3Hit).1 = [] ∧
    (determineOperationKind rndHalf 0 c3Hit).1 = OpKind.Move := by
  refine ⟨by decide, by decide, by decide⟩

/-- The matched folder and rule of the spec's simple-rename scenario, with the
architecture document's example template `\x7byyyy\x7d\\\x7bname\x7d`. -/
def c5Folder : MockFolder := ⟨"C:\\src\\report_q1".toList, "report_q1".toList, 0⟩

def c5Rule : Rule :=
  ⟨"r".toList, true, ⟨PatternKind.Contains, "report".toList, false, false⟩,
   "D:\\out".toList, "{yyyy}\\{name}".toList, ConflictPolicy.Skip, none, 0⟩

/-- C5. The claim (and the repository's own documents, whose example
template is `\x7byyyy\x7d\\\x7bname\x7d`) says the tokens `name`, `label`,
`yyyy`, `yyyyMM`, `drive`, `parent` are substituted, and an unknown token is a
load-time error.  The code substitutes only `name`, `year`, `month`, `day`
(first occurrence each, from the local clock) and silently leaves everything
else verbatim: on the documented template the destination preview keeps a
literal `\x7byyyy\x7d` component instead of the year, and no error is ever
raised.  The code contradicts its own documentation, so this is a code bug. -/
theorem claim_C5_code_bug_eval :
    generateDestinationPath ⟨2024, 6, 7⟩ c5Folder c5Rule =
      ("D:\\out\\{yyyy}\\report_q1".toList) ∧
    jsIncludes (generateDestinationPath ⟨2024, 6, 7⟩ c5Folder c5Rule) ("{yyyy}".toList) = true ∧
    jsIncludes (generateDestinationPath ⟨2024, 6, 7⟩ c5Folder c5Rule) ("2024".toList) = false := by
  refine ⟨by decide, by decide, by decide⟩

/-- If the matcher finds a rule after one rule is disabled, it finds a rule in
the original set as well: disabling only shrinks the candidate set. -/
theorem findMatchingRule_isSome_of_disabled (oracle : RegexOracle) (rules : List Rule)
    (rid : List Char) (n : List Char)
    (h : (findMatchingRule oracle (disableRule rid rules) n).isSome = true) :
    (findMatchingRule oracle rules n).isSome = true := by
  rw [findMatchingRule, List.find?_isSome] at h ⊢
  obtain ⟨x, hx, hpx⟩ := h
  rw [disableRule, List.mem_map] at hx
  obtain ⟨r, hr, hfr⟩ := hx
  by_cases hid : r.id = rid
  · rw [if_pos hid] at hfr
    subst hfr
    simp at hpx
  · rw [if_neg hid] at hfr
    subst hfr
    exact ⟨r, hr, hpx⟩

/-- C9. Matching is monotone under rule disabling: for every rule set,
folder-name list, and rule id, disabling that rule cannot increase the number
of folder names for which the matcher returns a matched rule. -/
theorem claim_C9 (oracle : RegexOracle) (rules : List Rule) (names : List (List Char))
    (rid : List Char) :
    hitCount oracle (disableRule rid rules) names ≤ hitCount oracle rules names := by
  rw [hitCount, hitCount, ← List.countP_eq_length_filter, ← List.countP_eq_length_filter]
  exact List.countP_mono_left (fun n _ h => findMatchingRule_isSome_of_disabled oracle rules rid n h)

set_option maxRecDepth 40000 in
unseal Rat.mul Rat.add Rat.sub Rat.inv in
/-- C8, counterexample. The claim puts the `LongPath` threshold at 247
characters; the code tests `path.length > 250`.  A 248-character path refutes
the claim as stated: its length exceeds 247, yet no `LongPath` warning is
attached. -/
theorem claim_C8_counterexample :
    (List.replicate 248 'a').length = 248 ∧
    Warning.LongPath ∉ (analyzeWarnings rndHalf 0 (List.replicate 248 'a')).1 := by
  refine ⟨by decide, by decide⟩

/-- C8, amended. The `LongPath` warning is attached to a visited folder's
hit exactly when the folder's path length exceeds 250 characters (not 247),
whatever the random demo samples are. -/
theorem claim_C8_amended (rnd : ℕ → ℚ) (k : ℕ) (path : List Char) :
    Warning.LongPath ∈ (analyzeWarnings rnd k path).1 ↔ path.length > 250 := by
  unfold analyzeWarnings
  split_ifs <;> simp_all

/-- The date used by the concrete counterexample scans. -/
def c4Date : JsDate := ⟨2024, 6, 7⟩

/-- A root whose lowercased path contains "documents". -/
def c4Root : List Char := "C:\\Users\\me\\Documents".toList

/-- An enabled inclusive rule carrying both an id and a (distinct) label. -/
def c4LabelRule : Rule :=
  ⟨"r1".toList, true, ⟨PatternKind.Contains, "a".toList, false, false⟩,
   "D:\\out".toList, "{name}".toList, ConflictPolicy.Skip, some ("L".toList), 0⟩

/-- A mock folder whose name matches `c4LabelRule`. -/
def c4Folder : MockFolder := ⟨"C:\\x\\cache".toList, "cache".toList, 5⟩

set_option maxRecDepth 40000 in
unseal Rat.mul Rat.add Rat.sub Rat.inv in
/-- C4, counterexample. The claim says a `FolderHit` is emitted iff the
matcher returned `Matched`, and that the hit's `matched_rule` is the id of the
matched rule.  The code refutes both parts: (i) with an empty rule set (no
rule can match) scanning a root still emits three hits, all with no matched
rule; (ii) when a rule with a label matches, `matched_rule` carries the
rule's label, not its id. -/
theorem claim_C4_counterexample :
    ((generateMockResults trivialOracle [] c4Date rndHalf 0 c4Root).1.length = 3 ∧
      (generateMockResults trivialOracle [] c4Date rndHalf 0 c4Root).1.all
        (fun h => h.matched_rule.isNone && h.dest_preview.isNone) = true) ∧
    ((scanFolders trivialOracle [c4LabelRule] c4Date rndHalf [c4Folder] 0).1.map
        (fun h => h.matched_rule) = [some ("L".toList)] ∧
      c4LabelRule.id ≠ "L".toList) := by
  refine ⟨⟨by decide, by decide⟩, by decide, by decide⟩

/-- C4, amended. A `FolderHit` is emitted for every visited folder
regardless of the match verdict; the hit copies the folder's path and name,
its `matched_rule` is the matched rule's label when present and non-empty,
otherwise the rule's id (and absent when no rule matched), and `dest_preview`
(the expanded destination) is present exactly when a rule matched. -/
theorem claim_C4_amended (oracle : RegexOracle) (rules : List Rule) (date : JsDate)
    (rnd : ℕ → ℚ) (folders : List MockFolder) (k : ℕ) :
    List.Forall₂
      (fun (h : FolderHit) (f : MockFolder) =>
        h.path = f.path ∧ h.name = f.name ∧
        h.matched_rule =
          (findMatchingRule oracle rules f.name).map (fun r => jsOr (r.label.getD []) r.id) ∧
        h.dest_preview =
          (findMatchingRule oracle rules f.name).map (fun r => generateDestinationPath date f r) ∧
        h.size_bytes = some f.size ∧
        (h.dest_preview.isSome ↔ (findMatchingRule oracle rules f.name).isSome))
      (scanFolders oracle rules date rnd folders k).1 folders := by
  induction folders generalizing k with
  | nil => exact List.Forall₂.nil
  | cons f fs ih =>
    refine List.Forall₂.cons ?_ (ih _)
    refine ⟨rfl, rfl, ?_, rfl, rfl, ?_⟩
    · cases findMatchingRule oracle rules f.name <;> rfl
    · cases findMatchingRule oracle rules f.name <;> simp

/-- A conflict-free hit whose destination preview lies on another volume. -/
def c2CrossHit : FolderHit :=
  ⟨"C:\\a\\x".toList, "x".toList, none, some ("D:\\b\\x".toList), [], none⟩

unseal Rat.mul Rat.add Rat.sub Rat.inv in
/-- C2, counterexample. The claim says `CopyDelete` is chosen only when
`enable_cross_volume` is set, a cross-volume move being rejected otherwise.
The code has no such setting: for a conflict-free cross-volume hit it returns
`CopyDelete` unconditionally, so the claimed biconditional fails however the
(nonexistent) flag is valued — here at `enable_cross_volume := false`. -/
theorem claim_C2_counterexample :
    ¬ (∀ enable_cross_volume : Bool, ∀ (rnd : ℕ → ℚ) (k : ℕ) (hit : FolderHit),
        jsTruthyStr hit.dest_preview = true →
        (analyzeConflicts rnd k hit).1 = [] →
        ((determineOperationKind rnd k hit).1 = OpKind.CopyDelete ↔
          (isCrossVolume hit.path (hit.dest_preview.getD []) = true ∧
            enable_cross_volume = true))) := by
  intro hclaim
  have h := hclaim false rndHalf 0 c2CrossHit (by decide) (by decide)
  have hk : (determineOperationKind rndHalf 0 c2CrossHit).1 = OpKind.CopyDelete := by decide
  exact absurd (h.mp hk).2 (by decide)

/-- C2, amended. For every hit with a truthy destination, no conflict
reported by `analyzeConflicts` (at the same random position) and no
`AccessDenied` warning, the operation kind is: `CopyDelete` iff source and
destination are cross-volume (unconditionally — there is no
`enable_cross_volume` setting and cross-volume moves are never rejected);
`Rename` iff same volume and the parent directories compare equal
case-insensitively; `Move` iff same volume and the parents differ. -/
theorem claim_C2_amended (rnd : ℕ → ℚ) (k : ℕ) (hit : FolderHit)
    (hdest : jsTruthyStr hit.dest_preview = true)
    (hconf : (analyzeConflicts rnd k hit).1 = [])
    (hacc : hit.warnings.contains Warning.AccessDenied = false) :
    ((determineOperationKind rnd k hit).1 = OpKind.CopyDelete ↔
      isCrossVolume hit.path (hit.dest_preview.getD []) = true) ∧
    ((determineOperationKind rnd k hit).1 = OpKind.Rename ↔
      (isCrossVolume hit.path (hit.dest_preview.getD []) = false ∧
        jsToLower (parentDir hit.path) = jsToLower (parentDir (hit.dest_preview.getD [])))) ∧
    ((determineOperationKind rnd k hit).1 = OpKind.Move ↔
      (isCrossVolume hit.path (hit.dest_preview.getD []) = false ∧
        jsToLower (parentDir hit.path) ≠ jsToLower (parentDir (hit.dest_preview.getD [])))) := by
  unfold determineOperationKind
  have hmem : Warning.AccessDenied ∉ hit.warnings := by simpa using hacc
  by_cases hcv : isCrossVolume hit.path (hit.dest_preview.getD []) = true
  · simp [hdest, hconf, hmem, hcv]
  · by_cases heq : jsToLower (parentDir hit.path) = jsToLower (parentDir (hit.dest_preview.getD []))
    · simp [hdest, hconf, hmem, hcv, heq]
    · simp [hdest, hconf, hmem, hcv, heq]

unseal Rat.mul Rat.add Rat.sub Rat.inv in
/-- Witness for the amended C2 at the concrete cross-volume hit. -/
theorem claim_C2_amended_witness :
    ((determineOperationKind rndHalf 0 c2CrossHit).1 = OpKind.CopyDelete ↔
      isCrossVolume c2CrossHit.path (c2CrossHit.dest_preview.getD []) = true) ∧
    ((determineOperationKind rndHalf 0 c2CrossHit).1 = OpKind.Rename ↔
      (isCrossVolume c2CrossHit.path (c2CrossHit.dest_preview.getD []) = false ∧
        jsToLower (parentDir c2CrossHit.path) =
          jsToLower (parentDir (c2CrossHit.dest_preview.getD [])))) ∧
    ((determineOperationKind rndHalf 0 c2CrossHit).1 = OpKind.Move ↔
      (isCrossVolume c2CrossHit.path (c2CrossHit.dest_preview.getD []) = false ∧
        jsToLower (parentDir c2CrossHit.path) ≠
          jsToLower (parentDir (c2CrossHit.dest_preview.getD [])))) :=
  claim_C2_amended rndHalf 0 c2CrossHit (by decide) (by decide) (by decide)

/-- A minimal hit for the determinism counterexample (no destination, no
size, no warnings). -/
def c6Hit : FolderHit := ⟨"C:\\r\\x".toList, "x".toList, none, none, [], none⟩

unseal Rat.mul Rat.add Rat.sub Rat.inv in
/-- C6, counterexample. The claim says two runs of the planner on the same
hit list produce identical plans (modulo node ids), including the summary.
The loop draws fresh `Math.random()` samples per run (for the estimated file
count and the simulated conflicts), so two runs with different samples yield
different summaries on the very same one-hit input: `count_files` is 10 under
one sample stream and 35 under another. -/
theorem claim_C6_counterexample :
    (generatePlan rndZero 0 [c6Hit]).1.summary ≠ (generatePlan rndHalf 0 [c6Hit]).1.summary ∧
    (generatePlan rndZero 0 [c6Hit]).1.summary.count_files = 10 ∧
    (generatePlan rndHalf 0 [c6Hit]).1.summary.count_files = 35 := by
  refine ⟨by decide, by decide, by decide⟩

/-- Agreement of two plan-node entries on every field that does not depend on
the random samples (all fields except the operation kind and the conflict
list). -/
def planNodeAgrees (a b : List Char × PlanNode) : Prop :=
  a.1 = b.1 ∧ a.2.id = b.2.id ∧ a.2.is_dir = b.2.is_dir ∧
  a.2.name_before = b.2.name_before ∧ a.2.path_before = b.2.path_before ∧
  a.2.name_after = b.2.name_after ∧ a.2.path_after = b.2.path_after ∧
  a.2.size_bytes = b.2.size_bytes ∧ a.2.warnings = b.2.warnings ∧
  a.2.children = b.2.children ∧ a.2.rule_id = b.2.rule_id

/-- Two runs of the planner loop on the same hits, with arbitrary sample
streams and positions, agree on node ids, node shapes and the
stream-independent accumulators (total bytes, cross-volume count, warnings
count). -/
theorem processHits_agnostic (r s : ℕ → ℚ) :
    ∀ (hits : List FolderHit) (i k₁ k₂ : ℕ),
      List.Forall₂ planNodeAgrees (processHits r hits i k₁).1 (processHits s hits i k₂).1 ∧
      (processHits r hits i k₁).2.1 = (processHits s hits i k₂).2.1 ∧
      (processHits r hits i k₁).2.2.2.1 = (processHits s hits i k₂).2.2.2.1 ∧
      (processHits r hits i k₁).2.2.2.2.2.1 = (processHits s hits i k₂).2.2.2.2.2.1 := by
  intro hits
  induction hits with
  | nil => intro i k₁ k₂; exact ⟨List.Forall₂.nil, rfl, rfl, rfl⟩
  | cons hit rest ih =>
    intro i k₁ k₂
    obtain ⟨hf, hb, hc, hw⟩ := ih (i + 1)
      ((determineOperationKind r ((analyzeConflicts r k₁ hit).2 + 1) hit).2)
      ((determineOperationKind s ((analyzeConflicts s k₂ hit).2 + 1) hit).2)
    simp only [processHits]
    exact ⟨List.Forall₂.cons ⟨rfl, rfl, rfl, rfl, rfl, rfl, rfl, rfl, rfl, rfl, rfl⟩ hf,
      congrArg (fun x => hitBytes hit + x) hb,
      congrArg (fun x => hitCrossVolume hit + x) hc,
      congrArg (fun x => hit.warnings.length + x) hw⟩

/-- Entries that agree on their first components have equal key lists. -/
theorem mapFst_eq_of_agrees :
    ∀ {l₁ l₂ : List (List Char × PlanNode)}, List.Forall₂ planNodeAgrees l₁ l₂ →
      l₁.map Prod.fst = l₂.map Prod.fst
  | _, _, List.Forall₂.nil => rfl
  | _, _, List.Forall₂.cons h t => by
      simp only [List.map_cons]
      exact congrArg₂ (· :: ·) h.1 (mapFst_eq_of_agrees t)

/-- C6, amended. The planner is deterministic only up to its random
samples: runs on the same hit list with identical samples are literally equal
(the planner is a function of the hit list and the sample stream), and even
with different samples the two plans agree on the root-id list, on every node
field other than the operation kind and the conflict list, and on the
summary's `count_dirs`, `total_bytes`, `cross_volume` and `warnings`; only
the randomized `count_files`, `conflicts`, kinds and conflict lists may
differ, as the counterexample forces. -/
theorem claim_C6_amended (hits : List FolderHit) (k₁ k₂ : ℕ) (r s : ℕ → ℚ) :
    (generatePlan r k₁ hits).1.roots = (generatePlan s k₂ hits).1.roots ∧
    List.Forall₂ planNodeAgrees (generatePlan r k₁ hits).1.nodes
      (generatePlan s k₂ hits).1.nodes ∧
    (generatePlan r k₁ hits).1.summary.count_dirs =
      (generatePlan s k₂ hits).1.summary.count_dirs ∧
    (generatePlan r k₁ hits).1.summary.total_bytes =
      (generatePlan s k₂ hits).1.summary.total_bytes ∧
    (generatePlan r k₁ hits).1.summary.cross_volume =
      (generatePlan s k₂ hits).1.summary.cross_volume ∧
    (generatePlan r k₁ hits).1.summary.warnings =
      (generatePlan s k₂ hits).1.summary.warnings := by
  obtain ⟨hf, hb, hc, hw⟩ := processHits_agnostic r s hits 0 k₁ k₂
  exact ⟨mapFst_eq_of_agrees hf, hf, by simpa using hf.length_eq,
    congrArg some hb, hc, hw⟩

/-- The bytes contribution coincides with `size_bytes.getD 0`. -/
theorem hitBytes_eq_getD (hit : FolderHit) : hitBytes hit = hit.size_bytes.getD 0 := by
  unfold hitBytes
  cases hit.size_bytes with
  | none => rfl
  | some q =>
    by_cases hq : q = 0
    · simp [hq]
    · simp [hq]

/-- The planner loop emits one node per hit. -/
theorem processHits_length (rnd : ℕ → ℚ) :
    ∀ (hits : List FolderHit) (i k : ℕ), (processHits rnd hits i k).1.length = hits.length := by
  intro hits
  induction hits with
  | nil => intros; rfl
  | cons hit rest ih =>
    intro i k
    simp only [processHits, List.length_cons]
    exact congrArg (· + 1) (ih _ _)

/-- The conflicts accumulator is the sum of the emitted nodes' conflict-list
lengths. -/
theorem processHits_conflicts (rnd : ℕ → ℚ) :
    ∀ (hits : List FolderHit) (i k : ℕ),
      (processHits rnd hits i k).2.2.2.2.1 =
        ((processHits rnd hits i k).1.map (fun p => p.2.conflicts.length)).sum := by
  intro hits
  induction hits with
  | nil => intros; rfl
  | cons hit rest ih =>
    intro i k
    simp only [processHits, List.map_cons, List.sum_cons]
    exact congrArg (fun x => (analyzeConflicts rnd k hit).1.length + x) (ih _ _)

/-- The warnings accumulator is the sum of the emitted nodes' warning-list
lengths. -/
theorem processHits_warnings (rnd : ℕ → ℚ) :
    ∀ (hits : List FolderHit) (i k : ℕ),
      (processHits rnd hits i k).2.2.2.2.2.1 =
        ((processHits rnd hits i k).1.map (fun p => p.2.warnings.length)).sum := by
  intro hits
  induction hits with
  | nil => intros; rfl
  | cons hit rest ih =>
    intro i k
    simp only [processHits, List.map_cons, List.sum_cons]
    exact congrArg (fun x => hit.warnings.length + x) (ih _ _)

/-- The byte accumulator is the sum of the hits' sizes (absent counted 0). -/
theorem processHits_bytes (rnd : ℕ → ℚ) :
    ∀ (hits : List FolderHit) (i k : ℕ),
      (processHits rnd hits i k).2.1 = (hits.map (fun h => h.size_bytes.getD 0)).sum := by
  intro hits
  induction hits with
  | nil => intros; rfl
  | cons hit rest ih =>
    intro i k
    simp only [processHits, List.map_cons, List.sum_cons]
    rw [hitBytes_eq_getD]
    exact congrArg (fun x => hit.size_bytes.getD 0 + x) (ih _ _)

/-- C10. For every generated plan: `count_dirs` equals the number of input
hits and each hit yields exactly one root node; `summary.conflicts` is the sum
of the nodes' conflict-list lengths; `summary.warnings` is the sum of the
nodes' warning-list lengths; and `summary.total_bytes` is the sum of the hits'
`size_bytes` with absent sizes counted as zero. -/
theorem claim_C10 (rnd : ℕ → ℚ) (k : ℕ) (hits : List FolderHit) :
    (generatePlan rnd k hits).1.summary.count_dirs = hits.length ∧
    (generatePlan rnd k hits).1.roots.length = hits.length ∧
    (generatePlan rnd k hits).1.nodes.length = hits.length ∧
    (generatePlan rnd k hits).1.summary.conflicts =
      ((generatePlan rnd k hits).1.nodes.map (fun p => p.2.conflicts.length)).sum ∧
    (generatePlan rnd k hits).1.summary.warnings =
      ((generatePlan rnd k hits).1.nodes.map (fun p => p.2.warnings.length)).sum ∧
    (generatePlan rnd k hits).1.summary.total_bytes =
      some ((hits.map (fun h => h.size_bytes.getD 0)).sum) := by
  refine ⟨processHits_length rnd hits 0 k, ?_, processHits_length rnd hits 0 k,
    processHits_conflicts rnd hits 0 k, processHits_warnings rnd hits 0 k,
    congrArg some (processHits_bytes rnd hits 0 k)⟩
  show ((processHits rnd hits 0 k).1.map Prod.fst).length = hits.length
  rw [List.length_map]
  exact processHits_length rnd hits 0 k

/-- Loop invariant of the executor's operation loop: the completed count never
decreases, and whenever at least one more operation completed, the post-delay
cancellation read of the **last** completed operation (at clock
`t + 2·(completed − c) − 1`) returned `false` — i.e. an operation only starts
(and completes) while cancellation has not been observed. -/
theorem simulateExecution_spec (rnd : ℕ → ℚ) (cancel : ℕ → Bool) :
    ∀ (ops : List FileOp) (k t c : ℕ) (b : ℚ),
      c ≤ (simulateExecution rnd cancel ops k t c b).1 ∧
      ((simulateExecution rnd cancel ops k t c b).1 > c →
        cancel (t + 2 * ((simulateExecution rnd cancel ops k t c b).1 - c) - 1) = false) := by
  intro ops
  induction ops with
  | nil =>
    intro k t c b
    exact ⟨Nat.le_refl c, fun h => absurd h (Nat.lt_irrefl c)⟩
  | cons op rest ih =>
    intro k t c b
    by_cases hg : cancel t = true
    · simp only [simulateExecution, if_pos hg]
      exact ⟨Nat.le_refl c, fun h => absurd h (Nat.lt_irrefl c)⟩
    · by_cases hp : cancel (t + 1) = true
      · simp only [simulateExecution, if_neg hg, if_pos hp]
        exact ⟨Nat.le_refl c, fun h => absurd h (Nat.lt_irrefl c)⟩
      · obtain ⟨h1, h2⟩ := ih (k + 1) (t + 2) (c + 1) (b + op.size)
        simp only [simulateExecution, if_neg hg, if_neg hp]
        refine ⟨Nat.le_trans (Nat.le_succ c) h1, fun _ => ?_⟩
        by_cases he :
            (simulateExecution rnd cancel rest (k + 1) (t + 2) (c + 1) (b + op.size)).1 = c + 1
        · rw [he]
          have harg : t + 2 * (c + 1 - c) - 1 = t + 1 := by omega
          rw [harg]
          simpa using hp
        · have hgt1 :
              c + 1 < (simulateExecution rnd cancel rest (k + 1) (t + 2) (c + 1) (b + op.size)).1 :=
            Nat.lt_of_le_of_ne h1 (Ne.symm he)
          have hres := h2 hgt1
          have harg :
              t + 2 + 2 *
                  ((simulateExecution rnd cancel rest (k + 1) (t + 2) (c + 1) (b + op.size)).1
                    - (c + 1)) - 1 =
                t + 2 *
                  ((simulateExecution rnd cancel rest (k + 1) (t + 2) (c + 1) (b + op.size)).1
                    - c) - 1 := by omega
          rw [harg] at hres
          exact hres

/-- C7. Once cancellation has been signalled (the sticky `isCancelled`
flag reads `true` from clock `t₀` on) and the signal arrives no later than the
executor's final flag read, the final execution status is `Cancelled`, and no
operation whose loop-guard read happened at or after `t₀` was started: every
completed operation finished its post-delay read strictly before `t₀`
(`2·completed_ops ≤ t₀`). -/
theorem claim_C7 (rnd : ℕ → ℚ) (cancel : ℕ → Bool) (plan : MovePlan) (t₀ : ℕ)
    (hm : ∀ u v : ℕ, u ≤ v → cancel u = true → cancel v = true)
    (hc : cancel t₀ = true)
    (ht : t₀ < (executeMovePlan rnd cancel plan).2.2) :
    (executeMovePlan rnd cancel plan).1.status = SessionStatus.Cancelled ∧
    ((executeMovePlan rnd cancel plan).1.completed_ops = 0 ∨
      2 * (executeMovePlan rnd cancel plan).1.completed_ops ≤ t₀) := by
  obtain ⟨h0, h1⟩ := simulateExecution_spec rnd cancel
    (generateFileOperations rnd plan plan.roots 0).1
    (generateFileOperations rnd plan plan.roots 0).2 0 0 0
  simp only [executeMovePlan] at ht ⊢
  by_cases hcend : cancel (simulateExecution rnd cancel
      (generateFileOperations rnd plan plan.roots 0).1
      (generateFileOperations rnd plan plan.roots 0).2 0 0 0).2.2.2 = true
  · rw [if_pos hcend]
    refine ⟨rfl, ?_⟩
    show (simulateExecution rnd cancel
        (generateFileOperations rnd plan plan.roots 0).1
        (generateFileOperations rnd plan plan.roots 0).2 0 0 0).1 = 0 ∨
      2 * (simulateExecution rnd cancel
        (generateFileOperations rnd plan plan.roots 0).1
        (generateFileOperations rnd plan plan.roots 0).2 0 0 0).1 ≤ t₀
    rcases Nat.eq_zero_or_pos (simulateExecution rnd cancel
        (generateFileOperations rnd plan plan.roots 0).1
        (generateFileOperations rnd plan plan.roots 0).2 0 0 0).1 with hz | hpos
    · left; exact hz
    · right
      have hfalse := h1 hpos
      by_contra hlt
      push_neg at hlt
      have hle : t₀ ≤ 0 + 2 * ((simulateExecution rnd cancel
          (generateFileOperations rnd plan plan.roots 0).1
          (generateFileOperations rnd plan plan.roots 0).2 0 0 0).1 - 0) - 1 := by omega
      have := hm t₀ _ hle hc
      rw [this] at hfalse
      exact absurd hfalse (by simp)
  · exfalso
    rw [if_neg hcend] at ht
    have ht2 : t₀ < (simulateExecution rnd cancel
        (generateFileOperations rnd plan plan.roots 0).1
        (generateFileOperations rnd plan plan.roots 0).2 0 0 0).2.2.2 + 1 := ht
    exact hcend (hm t₀ _ (by omega) hc)

/-- A one-node plan used by the C7 witness. -/
def c7Node : PlanNode :=
  ⟨"node_0".toList, true, "x".toList, "C:\\r\\x".toList, "x".toList,
   "C:\\r\\x".toList, OpKind.Move, none, [], [], [], none⟩

def c7Plan : MovePlan :=
  ⟨["node_0".toList], [("node_0".toList, c7Node)], ⟨1, 10, some 0, 0, 0, 0⟩⟩

/-- A cancellation flag that is set before execution begins. -/
def c7Cancel : ℕ → Bool := fun _ => true

unseal Rat.mul Rat.add Rat.sub Rat.inv in
/-- Witness for C7: with cancellation signalled from the start on a one-node
plan, no operation completes and the status is `Cancelled`. -/
theorem claim_C7_witness :
    (executeMovePlan rndZero c7Cancel c7Plan).1.status = SessionStatus.Cancelled ∧
    ((executeMovePlan rndZero c7Cancel c7Plan).1.completed_ops = 0 ∨
      2 * (executeMovePlan rndZero c7Cancel c7Plan).1.completed_ops ≤ 0) :=
  claim_C7 rndZero c7Cancel c7Plan 0 (fun _ _ _ h => h) rfl (by decide)

end FileMover
